import Mathlib

/-!
Shallow embedding of the HACS repository lifecycle (custom_components/hacs),
centered on `repositories/base.py` (the `HacsRepository` class and its
`RepositoryData`) and `validate/__init__.py` (`async_run_repository_checks`).

Python objects become Lean structures; coroutines become pure state-passing
functions; the network and filesystem are passed in explicitly as oracle
parameters (download outcomes, remote metadata, an existing-path set).
Exceptions become `Except String`.

Helper modules that are referenced by `base.py` but whose source files are
not part of the repository snapshot (`utils/version.py`,
`utils/validate_repository.py`, `utils/path.py`, `utils/validate.py`) are
modelled from the specification's words; each such definition carries a doc
comment starting with `Modelled from the spec:`.
-/

namespace Hacs

/-! ### String helpers (kernel-reducible splitting and digit parsing) -/

/-- Split a character list on a separator character, Python `str.split`
style: `n` separators yield `n + 1` (possibly empty) components. -/
def splitCharList (sep : Char) : List Char → List (List Char)
  | [] => [[]]
  | c :: cs =>
    let rest := splitCharList sep cs
    if c = sep then [] :: rest
    else
      match rest with
      | [] => [[c]]
      | h :: t => (c :: h) :: t

/-- Split a string on a separator character. -/
def splitOnChar (sep : Char) (s : String) : List String :=
  (splitCharList sep s.data).map String.mk

/-- Read a non-empty all-digit character list as a natural number,
`none` otherwise (the behavior of `int()`/`String.toNat?` on a version
component). -/
def compToNat (cs : List Char) : Option Nat :=
  if cs = [] then none
  else if cs.all (fun c => c.isDigit) then
    some (cs.foldl (fun acc c => acc * 10 + (c.toNat - 48)) 0)
  else none

/-! ### Version policy -/

/-- Modelled from the spec: `utils/version.py` is absent from the snapshot.
Parse of a dotted numeric version string: split on `.`, each component read
as a natural number (a non-numeric component contributes 0). -/
def parseVersion (s : String) : List Nat :=
  (splitCharList '.' s.data).map (fun c => (compToNat c).getD 0)

/-- Modelled from the spec: strict "left higher than right" on parsed
component lists — higher numeric component wins, missing components
default to 0. -/
def vGT : List Nat → List Nat → Bool
  | [], _ => false
  | x :: xs, [] => if x > 0 then true else vGT xs []
  | x :: xs, y :: ys =>
    if x > y then true else if x < y then false else vGT xs ys

/-- Modelled from the spec: "left higher or equal to right" on parsed
component lists — the complement of the strict comparison, since the
component order (missing components defaulting to 0) is total. -/
def vGE (a b : List Nat) : Bool :=
  !(vGT b a)

/-- Modelled from the spec: `version_left_higher_then_right` of
`utils/version.py` (absent from the snapshot), restricted to the dotted
numeric versions the claims quantify over. -/
def version_left_higher_then_right (left right : String) : Bool :=
  vGT (parseVersion left) (parseVersion right)

/-- Modelled from the spec: `version_left_higher_or_equal_then_right` of
`utils/version.py` (absent from the snapshot). -/
def version_left_higher_or_equal_then_right (left right : String) : Bool :=
  vGE (parseVersion left) (parseVersion right)

/-! ### Data model (`RepositoryData`, manifest, repository state) -/

/-- The fields of `RepositoryData` (base.py) that the lifecycle operations
under study read or write.  Python `None` defaults become `Option`. -/
structure RepositoryData where
  category : String := ""
  config_flow : Bool := false
  default_branch : Option String := none
  domain : String := ""
  etag_repository : Option String := none
  full_name : String := ""
  homeassistant : Option String := none
  installed : Bool := false
  installed_commit : Option String := none
  installed_version : Option String := none
  last_commit : Option String := none
  last_version : Option String := none
  last_updated : String := ""
  new : Bool := true
  persistent_directory : Option String := none
  releases : Bool := false
  selected_tag : Option String := none
  zip_release : Bool := false
  deriving Repr, DecidableEq

/-- `RepositoryData.name` (base.py): domain for integration/netdaemon,
otherwise the last segment of the full name. -/
def RepositoryData.name (d : RepositoryData) : String :=
  if d.category = "integration" ∨ d.category = "netdaemon" then d.domain
  else (splitOnChar '/' d.full_name).getLastD ""

/-- The manager manifest (`hacs.json`) parsed into typed fields; a `some`
field stands for a key present in the parsed dictionary
(`HacsManifest.from_dict` plus `RepositoryData.update_data` in base.py). -/
structure HacsManifestData where
  name : Option String := none
  content_in_root : Option Bool := none
  zip_release : Option Bool := none
  filename : Option String := none
  hacs : Option String := none
  homeassistant : Option String := none
  persistent_directory : Option String := none
  deriving Repr, DecidableEq

/-- Ambient manager state the repository methods read through `self.hacs`:
the running host version (`hacs.core.ha_version.string`), the automated/CI
flag (`hacs.system.action`) and the running flag (`hacs.system.running`). -/
structure HacsCtx where
  ha_version : String := ""
  action : Bool := false
  running : Bool := true
  deriving Repr, DecidableEq

/-- The slice of a `HacsRepository` instance (base.py) that the claims
touch: its data record, content descriptors, manifest, pending-restart
flag, tree file names, resolved ref and collected validation errors. -/
structure HacsRepository where
  hacs : HacsCtx := {}
  data : RepositoryData := {}
  content_single : Bool := false
  content_local : Option String := none
  repository_manifest : HacsManifestData := {}
  pending_restart : Bool := false
  tree : List String := []
  ref : Option String := none
  validate_errors : List String := []
  deriving Repr, DecidableEq

/-! ### Display properties and update/download status (base.py) -/

/-- `display_version_or_commit` (base.py). -/
def display_version_or_commit (r : HacsRepository) : String :=
  if r.data.releases then "version" else "commit"

/-- `display_installed_version` (base.py): installed version, else
installed commit, else the empty string. -/
def display_installed_version (r : HacsRepository) : String :=
  match r.data.installed_version with
  | some v => v
  | none =>
    match r.data.installed_commit with
    | some c => c
    | none => ""

/-- `display_available_version` (base.py): last version, else last commit,
else the empty string. -/
def display_available_version (r : HacsRepository) : String :=
  match r.data.last_version with
  | some v => v
  | none =>
    match r.data.last_commit with
    | some c => c
    | none => ""

/-- `can_download` (base.py): false only when a minimum Home Assistant
version is declared, the repository uses releases, and the running host
version is not higher-or-equal to the declared minimum. -/
def can_download (r : HacsRepository) : Bool :=
  match r.data.homeassistant with
  | some minHa =>
    if r.data.releases then
      if !(version_left_higher_or_equal_then_right r.hacs.ha_version minHa) then false
      else true
    else true
  | none => true

/-- The version/string checks of `pending_update` (base.py) reached when the
selected-tag-equals-default-branch branch does not return: in version mode a
higher available version reports an update, and independently of the mode
any difference between the displayed installed and available versions does. -/
def pending_update_version_checks (r : HacsRepository) : Bool :=
  if display_version_or_commit r = "version"
      && version_left_higher_then_right
          (display_available_version r) (display_installed_version r) then
    true
  else
    display_installed_version r != display_available_version r

/-- `pending_update` (base.py). -/
def pending_update (r : HacsRepository) : Bool :=
  if !(can_download r) then false
  else if r.data.installed then
    match r.data.selected_tag with
    | some tag =>
      if r.data.default_branch = some tag then
        r.data.installed_commit != r.data.last_commit
      else pending_update_version_checks r
    | none => pending_update_version_checks r
  else false

/-- `display_status` (base.py). -/
def display_status (r : HacsRepository) : String :=
  if r.data.new then "new"
  else if r.pending_restart then "pending-restart"
  else if pending_update r then "pending-upgrade"
  else if r.data.installed then "installed"
  else "default"

/-! ### Ref resolution and the manager manifest -/

/-- Modelled from the spec: `version_to_download` of `utils/version.py`
(absent from the snapshot) — an explicit pinned ref wins; otherwise the
resolved release version when releases are used; otherwise the default
branch name. -/
def version_to_download (r : HacsRepository) : String :=
  match r.data.selected_tag with
  | some t => t
  | none =>
    if r.data.releases then
      match r.data.last_version with
      | some v => v
      | none => r.data.default_branch.getD ""
    else r.data.default_branch.getD ""

/-- The effect of `RepositoryData.update_data` (base.py) applied to a parsed
`hacs.json` dictionary: each key present in the manifest overwrites the
matching record field. -/
def applyManifest (d : RepositoryData) (m : HacsManifestData) : RepositoryData :=
  { d with
    homeassistant := m.homeassistant.orElse (fun _ => d.homeassistant),
    persistent_directory := m.persistent_directory.orElse (fun _ => d.persistent_directory),
    zip_release := m.zip_release.getD d.zip_release }

/-- `get_repository_manifest_content` (base.py).  `parsed` is the outcome of
fetching and parsing `hacs.json` at the resolved ref: `some m` when the file
was fetched and parsed, `none` when fetching or parsing raised (the source
catches every exception uniformly). -/
def get_repository_manifest_content (r : HacsRepository)
    (parsed : Option HacsManifestData) : Except String HacsRepository :=
  if !(r.tree.contains "hacs.json") then
    if r.hacs.action then
      .error "::error:: No hacs.json file in the root of the repository."
    else .ok r
  else
    let r1 := { r with ref := some (version_to_download r) }
    match parsed with
    | some m =>
      .ok { r1 with repository_manifest := m, data := applyManifest r1.data m }
    | none =>
      if r.hacs.action then .error "::error:: hacs.json file is not valid."
      else .ok r1

/-! ### Metadata refresh (`common_update`) -/

/-- Attributes the remote code host reports for a repository, together with
its current caching token and latest commit. -/
structure RemoteState where
  etag : String := ""
  pushed_at : String := ""
  last_commit : String := ""
  deriving Repr, DecidableEq

/-- Modelled from the spec: `common_update_data` of
`utils/validate_repository.py` (absent from the snapshot) — fetches
repository attributes through the caching token; when the token is unchanged
and the repository is not installed and the call is not forced, the remote
reports NotModified and the record is left untouched; otherwise the new
token is stored.  The renamed-repository retry of `common_update` is outside
this model: the remote oracle here never reports a rename. -/
def common_update_data (r : HacsRepository) (remote : RemoteState)
    (force : Bool) : HacsRepository :=
  if !r.data.installed && !force && r.data.etag_repository = some remote.etag then r
  else { r with data := { r.data with etag_repository := some remote.etag } }

/-- `common_update` (base.py): refresh attributes through the caching token,
return `false` (unchanged, nothing further) when the repository is not
installed, the token did not move and the call is not forced; otherwise
store the push timestamp and latest commit and fetch the manager manifest. -/
def common_update (r : HacsRepository) (remote : RemoteState) (force : Bool)
    (parsedManifest : Option HacsManifestData) :
    Except String (Bool × HacsRepository) :=
  let current_etag := r.data.etag_repository
  let r1 := common_update_data r remote force
  if !r1.data.installed && current_etag = r1.data.etag_repository && !force then
    .ok (false, r1)
  else
    let r2 := { r1 with data := { r1.data with
                  last_updated := remote.pushed_at,
                  last_commit := some remote.last_commit } }
    match get_repository_manifest_content r2 parsedManifest with
    | .error e => .error e
    | .ok r3 => .ok (true, r3)

/-! ### Install (`async_install_repository` and post-install) -/

/-- Modelled from the spec: `Validate.success` of `utils/validate.py`
(absent from the snapshot) — an attempt succeeds exactly when its collected
error list is empty. -/
def validateSuccess (errors : List String) : Bool :=
  errors.isEmpty

/-- Outcome of one install attempt: the resulting repository state plus the
observable backup/download/event effects of `async_install_repository` and
`_async_post_install` (base.py). -/
structure InstallResult where
  repo : HacsRepository
  version : String
  backup_created : Bool := false
  backup_restored : Bool := false
  backup_cleaned : Bool := false
  persistent_created : Bool := false
  persistent_restored : Bool := false
  download_via_zip : Bool := false
  install_event_fired : Bool := false

/-- `async_install_repository` (base.py).  The input state is the state
after the initial `update_repository` refresh.  `persistentDirExists` is
the filesystem answer for the declared persistent directory;
`downloadErrors` is the error list the download phase (zip assets or raw
content) collects — the network itself is the oracle. -/
def async_install_repository (r : HacsRepository) (persistentDirExists : Bool)
    (downloadErrors : List String) : Except String InstallResult :=
  match r.content_local with
  | none => .error "repository.content.path.local is None"
  | some _ =>
    let r0 := { r with validate_errors := [] }
    if !(can_download r0) then
      .error "The version of Home Assistant is not compatible with this version"
    else
      let version := version_to_download r0
      let ref := if r0.data.default_branch = some version then version
                 else "tags/" ++ version
      let r1 := { r0 with ref := some ref }
      let persistentCreated :=
        if r1.data.installed && r1.data.category = "netdaemon" then true
        else
          (match r1.data.persistent_directory with
           | some pd => pd != ""
           | none => false) && persistentDirExists
      let backupCreated := r1.data.installed && !r1.content_single
      let viaZip := r1.data.zip_release && !(r1.data.default_branch = some version)
      let r2 := { r1 with validate_errors := downloadErrors }
      let restored := !(validateSuccess r2.validate_errors) && backupCreated
      let r3 :=
        if validateSuccess r2.validate_errors then
          { r2 with data := { r2.data with
              installed := true,
              installed_commit := r2.data.last_commit,
              installed_version :=
                if r2.data.default_branch = some version then none
                else some version } }
        else r2
      .ok { repo := r3, version := version,
            backup_created := backupCreated, backup_restored := restored,
            backup_cleaned := backupCreated,
            persistent_created := persistentCreated,
            persistent_restored := persistentCreated,
            download_via_zip := viaZip }

/-- `async_install` (base.py): the install steps followed by
`_async_post_install`, which clears the `new` flag and fires the
`hacs/repository` install event. -/
def async_install (r : HacsRepository) (persistentDirExists : Bool)
    (downloadErrors : List String) : Except String InstallResult :=
  match async_install_repository r persistentDirExists downloadErrors with
  | .error e => .error e
  | .ok res =>
    .ok { res with
          repo := { res.repo with data := { res.repo.data with new := false } },
          install_event_fired := true }

/-! ### Uninstall and local-content removal -/

/-- A flat model of the local filesystem: the set of existing paths. -/
structure FS where
  paths : List String := []
  deriving Repr, DecidableEq

/-- Whether a path exists. -/
def FS.pathExists (fs : FS) (p : String) : Bool :=
  fs.paths.contains p

/-- Remove a path (a file, or a directory with all its content rooted at
that path in this flat model). -/
def FS.removePath (fs : FS) (p : String) : FS :=
  { paths := fs.paths.filter (fun q => q != p) }

/-- Modelled from the spec: `is_safe` of `utils/path.py` (absent from the
snapshot) — the path-safety predicate confirming a removal target lies
inside the manager's managed root is abstracted as an oracle, together with
the configuration paths used to locate a theme's yaml file. -/
structure PathEnv where
  path_ok : String → Bool
  config_path : String := ""
  theme_path : String := ""

/-- Outcome of `remove_local_directory` (base.py): success flag, resulting
filesystem, what was removed and how, and whether the safety check ran. -/
structure RemovalResult where
  ok : Bool
  fs : FS
  removed_path : Option String := none
  removed_single_file : Bool := false
  safety_checked : Bool := false

/-- The shared tail of `remove_local_directory` (base.py): if the target
exists, refuse when the safety check blocks it, otherwise remove it —
`os.remove` of a single file for `python_script`, `shutil.rmtree`
otherwise; a missing target succeeds without removal. -/
def removalCore (r : HacsRepository) (env : PathEnv) (fs : FS)
    (local_path : String) : RemovalResult :=
  if fs.pathExists local_path then
    if !(env.path_ok local_path) then
      { ok := false, fs := fs, safety_checked := true }
    else
      { ok := true, fs := fs.removePath local_path,
        removed_path := some local_path,
        removed_single_file := r.data.category = "python_script",
        safety_checked := true }
  else
    { ok := true, fs := fs }

/-- The removal target of `remove_local_directory` (base.py): the single
`<name>.py` file under the local content path for `python_script`, the
local content path itself for every other category. -/
def removal_target (r : HacsRepository) : String :=
  if r.data.category = "python_script" then
    r.content_local.getD "" ++ "/" ++ r.data.name ++ ".py"
  else r.content_local.getD ""

/-- The theme yaml file `remove_local_directory` (base.py) deletes for the
`theme` category before removing the content directory. -/
def themeYamlPath (r : HacsRepository) (env : PathEnv) : String :=
  env.config_path ++ "/" ++ env.theme_path ++ "/" ++ r.data.name ++ ".yaml"

/-- `remove_local_directory` (base.py): category-specific target path
(single `<name>.py` file for `python_script`, the local content directory
otherwise; `theme` additionally deletes the theme's yaml file, and
`integration` requires a domain), then the guarded removal.  The
busy-wait for the path to disappear is atomic here. -/
def remove_local_directory (r : HacsRepository) (env : PathEnv) (fs : FS) :
    RemovalResult :=
  if r.data.category = "theme" then
    let yaml := themeYamlPath r env
    let fs1 := if fs.pathExists yaml then fs.removePath yaml else fs
    removalCore r env fs1 (removal_target r)
  else if r.data.category = "integration" then
    if r.data.domain = "" then { ok := false, fs := fs }
    else removalCore r env fs (removal_target r)
  else removalCore r env fs (removal_target r)

/-- Outcome of `uninstall` (base.py): resulting repository state and
filesystem, plus the store-removal, event and reload effects. -/
structure UninstallResult where
  repo : HacsRepository
  fs : FS
  store_removed : Bool := false
  uninstall_event_fired : Bool := false
  reload_triggered : Bool := false

/-- `uninstall` (base.py): raise when local removal fails, otherwise clear
the installed flag, run the category post-steps (integration with config
flow reloads, without one marks a pending restart), delete the
per-repository store entry, clear the version pointers and fire the
uninstall event. -/
def uninstall (r : HacsRepository) (env : PathEnv) (fs : FS) :
    Except String UninstallResult :=
  let rem := remove_local_directory r env fs
  if !rem.ok then .error "Could not uninstall"
  else
    let r1 := { r with data := { r.data with installed := false } }
    let step :=
      if r1.data.category = "integration" then
        if r1.data.config_flow then (r1, true)
        else ({ r1 with pending_restart := true }, false)
      else (r1, false)
    let r3 := { step.1 with data := { step.1.data with
                  installed_version := none, installed_commit := none } }
    .ok { repo := r3, fs := rem.fs, store_removed := true,
          uninstall_event_fired := true, reload_triggered := step.2 }

/-! ### Validation pipeline run (`validate/__init__.py`) -/

/-- How one call of `async_run_repository_checks` ends: skipped because the
manager is not running, process exit with a failed/total count (automated
mode), a logged error with the same count (interactive mode), or a pass. -/
inductive CheckRunOutcome
  | skipped
  | exitFailure (failed total : Nat)
  | loggedError (failed total : Nat)
  | passed
  deriving Repr, DecidableEq

/-- Result of one validation run: the outcome plus the ordered outcomes of
the checks that were executed (`true` = that check failed). -/
structure ChecksRun where
  outcome : CheckRunOutcome
  checks_run : List Bool
  deriving Repr, DecidableEq

/-- `async_run_repository_checks` (validate/__init__.py).  `rules` maps a
category tag to the failure outcomes, in registration order, of the checks
registered under that tag when run against this repository — the registry
(`RULES`) is taken as already loaded. -/
def async_run_repository_checks (ctx : HacsCtx) (rules : String → List Bool)
    (category : String) : ChecksRun :=
  if !ctx.running then { outcome := .skipped, checks_run := [] }
  else
    let checks := rules "common" ++ rules category
    let total := checks.length
    let failed := (checks.filter (fun b => b)).length
    if failed ≠ 0 ∧ ctx.action = true then
      { outcome := .exitFailure failed total, checks_run := checks }
    else if failed ≠ 0 then
      { outcome := .loggedError failed total, checks_run := checks }
    else
      { outcome := .passed, checks_run := checks }

/-! ## Lemmas about the version order -/

theorem vGT_irrefl (x : List Nat) : vGT x x = false := by
  induction x with
  | nil => rfl
  | cons a t ih => simp [vGT, ih]

theorem vGT_asymm : ∀ x y, vGT x y = true → vGT y x = false := by
  intro x
  induction x with
  | nil => intro y h; simp [vGT] at h
  | cons a t ih =>
    intro y h
    cases y with
    | nil => simp [vGT]
    | cons b u =>
      simp only [vGT] at h ⊢
      rcases Nat.lt_trichotomy a b with hab | hab | hab
      · simp [hab, Nat.lt_asymm hab] at h
      · subst hab
        simp [Nat.lt_irrefl] at h ⊢
        exact ih u h
      · simp [hab, Nat.lt_asymm hab]

theorem vGT_ne_of_gt {a b : String}
    (h : vGT (parseVersion a) (parseVersion b) = true) : a ≠ b := by
  intro hab
  subst hab
  rw [vGT_irrefl] at h
  exact Bool.false_ne_true h

/-! ## Repository fixtures used by the claim theorems -/

/-- An installed repository tracking tagged releases (version mode): no
pinned tag, no minimum host version, given installed and available version
strings. -/
def releaseModeRepo (inst avail : String) : HacsRepository :=
  { data := { installed := true, releases := true,
              installed_version := some inst, last_version := some avail } }

/-! ## Claim theorems -/

/-- C1 (counterexample): with dotted numeric versions a = "2.0" > b = "1.0",
the claim says a repository with installed a and available b reports
`pending_update` false; the code reports true, falling through to the raw
string-inequality check. -/
theorem pending_update_antisymmetry_counterexample :
    vGT (parseVersion "2.0") (parseVersion "1.0") = true ∧
    pending_update (releaseModeRepo "2.0" "1.0") = true := by
  decide

/-- C1 (amended): over dotted numeric versions with a strictly above b in
the dotted numeric precedence, an installed release-mode repository with
installed b and available a reports a pending update, and equal installed
and available strings never do; but with installed a and available b the
code also reports a pending update, because after the version comparison
fails it falls through to the raw string-inequality check. -/
theorem pending_update_release_mode_amended (a b : String)
    (hgt : vGT (parseVersion a) (parseVersion b) = true) :
    pending_update (releaseModeRepo b a) = true ∧
    pending_update (releaseModeRepo a b) = true ∧
    pending_update (releaseModeRepo a a) = false := by
  have hne : a ≠ b := vGT_ne_of_gt hgt
  have hba : vGT (parseVersion b) (parseVersion a) = false :=
    vGT_asymm _ _ hgt
  refine ⟨?_, ?_, ?_⟩
  · simp [pending_update, releaseModeRepo, can_download,
          pending_update_version_checks, display_version_or_commit,
          display_available_version, display_installed_version,
          version_left_higher_then_right, hgt]
  · simp [pending_update, releaseModeRepo, can_download,
          pending_update_version_checks, display_version_or_commit,
          display_available_version, display_installed_version,
          version_left_higher_then_right, hba, hne]
  · simp [pending_update, releaseModeRepo, can_download,
          pending_update_version_checks, display_version_or_commit,
          display_available_version, display_installed_version,
          version_left_higher_then_right, vGT_irrefl]

/-- C1 (witness): the amended theorem applied at a = "2.0", b = "1.0". -/
theorem pending_update_release_mode_amended_witness :
    pending_update (releaseModeRepo "1.0" "2.0") = true ∧
    pending_update (releaseModeRepo "2.0" "1.0") = true ∧
    pending_update (releaseModeRepo "2.0" "2.0") = false :=
  pending_update_release_mode_amended "2.0" "1.0" (by decide)

/-- C3 (counterexample): a repository declaring minimum host version
"2024.1.0" against running host "2023.12.0" — strictly greater — but not
using releases still has `can_download` true, since the compatibility gate
in `can_download` only fires when `data.releases` is set. -/
theorem can_download_no_releases_counterexample :
    vGT (parseVersion "2024.1.0") (parseVersion "2023.12.0") = true ∧
    can_download
      { hacs := { ha_version := "2023.12.0" },
        data := { releases := false, homeassistant := some "2024.1.0" } } = true := by
  decide

/-- C3 (amended): for a repository that uses tagged releases and whose
manifest declares a minimum host version strictly greater than the running
host version, `can_download` is false, `pending_update` is false, and the
install steps raise the compatibility error before any download or backup
step is reached. -/
theorem incompatible_min_ha_blocks (r : HacsRepository) (minHa p : String)
    (hrel : r.data.releases = true)
    (hha : r.data.homeassistant = some minHa)
    (hgt : vGT (parseVersion minHa) (parseVersion r.hacs.ha_version) = true)
    (hloc : r.content_local = some p) (pde : Bool) (derr : List String) :
    can_download r = false ∧
    pending_update r = false ∧
    async_install_repository r pde derr =
      .error "The version of Home Assistant is not compatible with this version" := by
  have hcd : can_download r = false := by
    simp [can_download, hha, hrel, version_left_higher_or_equal_then_right,
          vGE, hgt]
  refine ⟨hcd, ?_, ?_⟩
  · simp [pending_update, hcd]
  · have hcd0 :
        can_download { r with content_local := some p, validate_errors := [] } = false :=
      hcd
    simp [async_install_repository, hloc, hcd0]

/-- C3 (witness): the amended theorem applied to a concrete release-mode
repository with minimum host "2024.1.0" on host "2023.12.0". -/
theorem incompatible_min_ha_blocks_witness :
    can_download
      { hacs := { ha_version := "2023.12.0" },
        data := { releases := true, homeassistant := some "2024.1.0" },
        content_local := some "/config/www/widget" } = false ∧
    pending_update
      { hacs := { ha_version := "2023.12.0" },
        data := { releases := true, homeassistant := some "2024.1.0" },
        content_local := some "/config/www/widget" } = false ∧
    async_install_repository
      { hacs := { ha_version := "2023.12.0" },
        data := { releases := true, homeassistant := some "2024.1.0" },
        content_local := some "/config/www/widget" } false [] =
      .error "The version of Home Assistant is not compatible with this version" :=
  incompatible_min_ha_blocks _ "2024.1.0" "/config/www/widget"
    rfl rfl (by decide) rfl false []

/-- C5: `display_status` follows exactly the priority order new →
pending-restart → pending-upgrade → installed → default; in particular a
new repository with a pending update shows "new", and an installed
repository with a pending restart shows "pending-restart". -/
theorem display_status_priority (r : HacsRepository) :
    (r.data.new = true → display_status r = "new") ∧
    (r.data.new = false → r.pending_restart = true →
      display_status r = "pending-restart") ∧
    (r.data.new = false → r.pending_restart = false → pending_update r = true →
      display_status r = "pending-upgrade") ∧
    (r.data.new = false → r.pending_restart = false → pending_update r = false →
      r.data.installed = true → display_status r = "installed") ∧
    (r.data.new = false → r.pending_restart = false → pending_update r = false →
      r.data.installed = false → display_status r = "default") ∧
    (r.data.new = true → pending_update r = true → display_status r = "new") ∧
    (r.data.new = false → r.data.installed = true → r.pending_restart = true →
      display_status r = "pending-restart") := by
  unfold display_status
  refine ⟨?_, ?_, ?_, ?_, ?_, ?_, ?_⟩ <;> intros <;> simp_all

/-- C5 (witness): the priority theorem applied to a new repository that
also has a pending update, and to an installed one with a pending
restart. -/
theorem display_status_priority_witness :
    display_status (releaseModeRepo "1.0" "2.0") = "new" ∧
    display_status
      { data := { installed := true, new := false }, pending_restart := true } =
      "pending-restart" :=
  ⟨(display_status_priority (releaseModeRepo "1.0" "2.0")).1 rfl,
   ((display_status_priority
      { data := { installed := true, new := false },
        pending_restart := true }).2.1) rfl rfl⟩

/-- Removing one path leaves the existence of any other path unchanged. -/
theorem FS.pathExists_removePath_ne (fs : FS) (p q : String) (h : p ≠ q) :
    (fs.removePath q).pathExists p = fs.pathExists p := by
  simp only [FS.pathExists, FS.removePath]
  by_cases hmem : p ∈ fs.paths
  · have h1 : fs.paths.contains p = true := List.elem_iff.mpr hmem
    have h2 : (fs.paths.filter (fun x => x != q)).contains p = true :=
      List.elem_iff.mpr (List.mem_filter.mpr ⟨hmem, by simp [h]⟩)
    rw [h1, h2]
  · have h1 : fs.paths.contains p = false :=
      Bool.eq_false_iff.mpr (fun hc => hmem (List.elem_iff.mp hc))
    have h2 : (fs.paths.filter (fun x => x != q)).contains p = false :=
      Bool.eq_false_iff.mpr
        (fun hc => hmem (List.mem_filter.mp (List.elem_iff.mp hc)).1)
    rw [h1, h2]

/-- Behavior of the shared removal tail: a removal only happens on a passed
safety check at exactly the target path, with the single-file strategy
exactly for `python_script`; an existing but unsafe target blocks with the
filesystem untouched. -/
theorem removalCore_spec (r : HacsRepository) (env : PathEnv) (fs : FS)
    (lp : String) :
    (∀ p, (removalCore r env fs lp).removed_path = some p →
      env.path_ok p = true ∧ p = lp ∧
      ((removalCore r env fs lp).removed_single_file = true ↔
        r.data.category = "python_script")) ∧
    (fs.pathExists lp = true → env.path_ok lp = false →
      (removalCore r env fs lp).ok = false ∧
      (removalCore r env fs lp).fs = fs) := by
  unfold removalCore
  split_ifs with h1 h2
  · refine ⟨?_, ?_⟩
    · intro p hp
      simp at hp
    · intro _ _
      exact ⟨rfl, rfl⟩
  · refine ⟨?_, ?_⟩
    · intro p hp
      simp only [Option.some.injEq] at hp
      subst hp
      refine ⟨?_, rfl, by simp⟩
      cases hok : env.path_ok lp
      · simp [hok] at h2
      · rfl
    · intro _ hblocked
      exact absurd (by simp [hblocked]) h2
  · refine ⟨?_, ?_⟩
    · intro p hp
      simp at hp
    · intro hex _
      exact absurd hex h1

/-- C8: uninstall removes a single file exactly for the script category and
a whole directory otherwise, and only after a passed safety check; an
existing but unsafe target is not removed and uninstall raises (the record
is returned unchanged only through the raised error, so the installed flag
keeps its value); on success the installed flag is cleared, both installed
pointers are nulled, the uninstall event fires and the per-repository
store entry is deleted. -/
theorem uninstall_contract (r : HacsRepository) (env : PathEnv) (fs : FS) :
    (∀ p, (remove_local_directory r env fs).removed_path = some p →
      env.path_ok p = true ∧ p = removal_target r ∧
      ((remove_local_directory r env fs).removed_single_file = true ↔
        r.data.category = "python_script")) ∧
    (fs.pathExists (removal_target r) = true →
      env.path_ok (removal_target r) = false →
      ¬(r.data.category = "integration" ∧ r.data.domain = "") →
      (r.data.category = "theme" → removal_target r ≠ themeYamlPath r env) →
      (remove_local_directory r env fs).ok = false ∧
      (remove_local_directory r env fs).fs.pathExists (removal_target r) = true ∧
      uninstall r env fs = .error "Could not uninstall") ∧
    ((remove_local_directory r env fs).ok = true →
      ∃ res, uninstall r env fs = .ok res ∧
        res.repo.data.installed = false ∧
        res.repo.data.installed_version = none ∧
        res.repo.data.installed_commit = none ∧
        res.store_removed = true ∧
        res.uninstall_event_fired = true) := by
  refine ⟨?_, ?_, ?_⟩
  · intro p hp
    unfold remove_local_directory at hp ⊢
    split_ifs at hp ⊢ with h1 h2 h3
    · exact (removalCore_spec r env _ _).1 p hp
    · exact (removalCore_spec r env _ _).1 p hp
    · exact (removalCore_spec r env _ _).1 p hp
  · intro hex hblocked hdom hyaml
    have hblock :
        (remove_local_directory r env fs).ok = false ∧
        (remove_local_directory r env fs).fs.pathExists (removal_target r) = true := by
      unfold remove_local_directory
      split_ifs with h1 h2 h3
      · have hne := hyaml h1
        by_cases hy : fs.pathExists (themeYamlPath r env) = true
        · have hex1 :
              (fs.removePath (themeYamlPath r env)).pathExists (removal_target r) = true := by
            rw [FS.pathExists_removePath_ne _ _ _ hne]
            exact hex
          have hc := (removalCore_spec r env
              (fs.removePath (themeYamlPath r env)) (removal_target r)).2 hex1 hblocked
          simp only [hy, eq_self_iff_true, if_true]
          exact ⟨hc.1, by rw [hc.2]; exact hex1⟩
        · have hy' : fs.pathExists (themeYamlPath r env) = false :=
            Bool.eq_false_iff.mpr hy
          have hc := (removalCore_spec r env fs (removal_target r)).2 hex hblocked
          simp only [hy', Bool.false_eq_true, if_false]
          exact ⟨hc.1, by rw [hc.2]; exact hex⟩
      · exact absurd ⟨h2, h3⟩ hdom
      · have hc := (removalCore_spec r env fs (removal_target r)).2 hex hblocked
        exact ⟨hc.1, by rw [hc.2]; exact hex⟩
      · have hc := (removalCore_spec r env fs (removal_target r)).2 hex hblocked
        exact ⟨hc.1, by rw [hc.2]; exact hex⟩
    refine ⟨hblock.1, hblock.2, ?_⟩
    unfold uninstall
    simp [hblock.1]
  · intro hok
    unfold uninstall
    simp only [hok, Bool.not_true, Bool.false_eq_true, if_false]
    by_cases hcat : r.data.category = "integration" <;>
      by_cases hcf : r.data.config_flow = true <;>
        simp [hcat, hcf]

/-- A repository of category `python_script` named `my_script` under
`owner/my_script`, with local content in the scripts folder. -/
def scriptRepo : HacsRepository :=
  { data := { category := "python_script", full_name := "owner/my_script",
              installed := true, installed_version := some "1.0" },
    content_local := some "/config/python_scripts" }

/-- A path environment whose safety check blocks everything outside
`/config`. -/
def sampleEnv : PathEnv :=
  { path_ok := fun p => (splitCharList '/' p.data).length > 2,
    config_path := "/config", theme_path := "themes" }

/-- C8 (witness): the contract applied to a python_script repository whose
single file exists and passes the safety check. -/
theorem uninstall_contract_witness :
    (∀ p,
      (remove_local_directory scriptRepo sampleEnv
        { paths := ["/config/python_scripts/my_script.py"] }).removed_path = some p →
      sampleEnv.path_ok p = true ∧ p = removal_target scriptRepo ∧
      ((remove_local_directory scriptRepo sampleEnv
        { paths := ["/config/python_scripts/my_script.py"] }).removed_single_file = true ↔
        scriptRepo.data.category = "python_script")) ∧
    (∃ res,
      uninstall scriptRepo sampleEnv
        { paths := ["/config/python_scripts/my_script.py"] } = .ok res ∧
      res.repo.data.installed = false ∧
      res.repo.data.installed_version = none ∧
      res.repo.data.installed_commit = none ∧
      res.store_removed = true ∧
      res.uninstall_event_fired = true) :=
  ⟨(uninstall_contract scriptRepo sampleEnv
      { paths := ["/config/python_scripts/my_script.py"] }).1,
   (uninstall_contract scriptRepo sampleEnv
      { paths := ["/config/python_scripts/my_script.py"] }).2.2 (by decide)⟩

/-- C9: with the manager running, one validation run executes exactly the
checks registered under "common" plus those registered under the
repository's category, in that order; when at least one fails, automated
mode ends the whole process with the failed/total count while interactive
mode only logs that count; with no failure the run passes. -/
theorem validation_run_policy (ctx : HacsCtx) (rules : String → List Bool)
    (category : String) (hrun : ctx.running = true) :
    (async_run_repository_checks ctx rules category).checks_run =
      rules "common" ++ rules category ∧
    (((rules "common" ++ rules category).filter (fun b => b)).length ≠ 0 →
      ctx.action = true →
      (async_run_repository_checks ctx rules category).outcome =
        .exitFailure ((rules "common" ++ rules category).filter (fun b => b)).length
          (rules "common" ++ rules category).length) ∧
    (((rules "common" ++ rules category).filter (fun b => b)).length ≠ 0 →
      ctx.action = false →
      (async_run_repository_checks ctx rules category).outcome =
        .loggedError ((rules "common" ++ rules category).filter (fun b => b)).length
          (rules "common" ++ rules category).length) ∧
    (((rules "common" ++ rules category).filter (fun b => b)).length = 0 →
      (async_run_repository_checks ctx rules category).outcome = .passed) := by
  unfold async_run_repository_checks
  refine ⟨?_, ?_, ?_, ?_⟩
  · simp only [hrun, Bool.not_true, Bool.false_eq_true, if_false]
    split_ifs <;> rfl
  · intro hfail hact
    simp only [hrun, Bool.not_true, Bool.false_eq_true, if_false]
    rw [if_pos ⟨hfail, hact⟩]
  · intro hfail hact
    simp only [hrun, Bool.not_true, Bool.false_eq_true, if_false]
    rw [if_neg (fun hc => by rw [hact] at hc; exact Bool.false_ne_true hc.2),
        if_pos hfail]
  · intro hfail
    simp only [hrun, Bool.not_true, Bool.false_eq_true, if_false]
    rw [if_neg (fun hc => hc.1 hfail), if_neg (fun hc => hc hfail)]

/-- The loaded check registry of the witness run: two common checks (one
failing) and one passing integration check. -/
def sampleRules : String → List Bool :=
  fun c =>
    if c = "common" then [false, true]
    else if c = "integration" then [false]
    else []

/-- C9 (witness): the policy theorem applied in automated mode to an
integration repository under `sampleRules`: three checks run, one fails,
and the run exits with the 1/3 count. -/
theorem validation_run_policy_witness :
    (async_run_repository_checks { action := true } sampleRules "integration").checks_run =
      sampleRules "common" ++ sampleRules "integration" ∧
    (async_run_repository_checks { action := true } sampleRules "integration").outcome =
      .exitFailure
        ((sampleRules "common" ++ sampleRules "integration").filter (fun b => b)).length
        (sampleRules "common" ++ sampleRules "integration").length :=
  ⟨(validation_run_policy { action := true } sampleRules "integration" rfl).1,
   (validation_run_policy { action := true } sampleRules "integration" rfl).2.1
     (by decide) rfl⟩

/-- C10: a repository that is not installed never has a pending update and
never shows the "pending-upgrade" status. -/
theorem not_installed_never_pending_upgrade (r : HacsRepository)
    (h : r.data.installed = false) :
    pending_update r = false ∧ display_status r ≠ "pending-upgrade" := by
  have hpu : pending_update r = false := by
    unfold pending_update
    cases hcd : can_download r <;> simp [h, hcd]
  refine ⟨hpu, ?_⟩
  unfold display_status
  rcases hnew : r.data.new with _ | _ <;>
    rcases hpr : r.pending_restart with _ | _ <;>
      simp [hnew, hpr, hpu, h]

/-- C2: when the download phase of an install attempt collects at least one
error and the repository was already installed with non-single-file
content, the pre-install main-content backup is restored, the installed
flag and both installed pointers keep exactly their pre-attempt values,
and the attempt's success flag reports failure. -/
theorem install_errors_restore_and_preserve (r : HacsRepository) (p : String)
    (hloc : r.content_local = some p) (hcd : can_download r = true)
    (hinst : r.data.installed = true) (hsingle : r.content_single = false)
    (pde : Bool) (derr : List String) (herr : derr ≠ []) :
    ∃ res, async_install_repository r pde derr = .ok res ∧
      res.backup_created = true ∧
      res.backup_restored = true ∧
      res.repo.data.installed = r.data.installed ∧
      res.repo.data.installed_version = r.data.installed_version ∧
      res.repo.data.installed_commit = r.data.installed_commit ∧
      validateSuccess res.repo.validate_errors = false := by
  have hcd0 :
      can_download { r with content_local := some p, validate_errors := [] } = true :=
    hcd
  have hde : derr.isEmpty = false := by
    cases derr with
    | nil => simp at herr
    | cons a l => rfl
  simp only [async_install_repository, hloc, hcd0, Bool.not_true,
             Bool.false_eq_true, if_false, validateSuccess, hde]
  exact ⟨_, rfl, by simp [hinst, hsingle], by simp [hinst, hsingle, hde],
         by simp [hde], by simp [hde], by simp [hde], by simp [hde]⟩

/-- An installed release-mode repository at version 1.0 / commit abc123
with available version 2.0, local content under `/config/www/widget`. -/
def installedWidgetRepo : HacsRepository :=
  { data := { installed := true, releases := true,
              installed_version := some "1.0", last_version := some "2.0",
              installed_commit := some "abc123" },
    content_local := some "/config/www/widget" }

/-- C2 (witness): the theorem applied to an installed release-mode
repository whose download phase reports one failed asset. -/
theorem install_errors_restore_and_preserve_witness :
    ∃ res,
      async_install_repository installedWidgetRepo
        false ["[widget.zip] was not downloaded"] = .ok res ∧
      res.backup_created = true ∧
      res.backup_restored = true ∧
      res.repo.data.installed = installedWidgetRepo.data.installed ∧
      res.repo.data.installed_version = installedWidgetRepo.data.installed_version ∧
      res.repo.data.installed_commit = installedWidgetRepo.data.installed_commit ∧
      validateSuccess res.repo.validate_errors = false :=
  install_errors_restore_and_preserve installedWidgetRepo "/config/www/widget"
    rfl rfl rfl rfl false ["[widget.zip] was not downloaded"] (by decide)

/-- C4: an install attempt whose download phase collects no error ends with
installed = true, installed_commit equal to the latest known commit,
installed_version equal to the resolved version unless that version is the
default branch (then null), the new flag cleared and the install event
fired; for a repository with no releases and no pinned tag the resolved
version is the default branch, so installed_version ends null. -/
theorem install_success_state (r : HacsRepository) (p db : String)
    (hloc : r.content_local = some p) (hcd : can_download r = true) (pde : Bool) :
    ∃ res, async_install r pde [] = .ok res ∧
      res.repo.data.installed = true ∧
      res.repo.data.installed_commit = r.data.last_commit ∧
      res.version = version_to_download r ∧
      res.repo.data.installed_version =
        (if r.data.default_branch = some (version_to_download r) then none
         else some (version_to_download r)) ∧
      res.repo.data.new = false ∧
      res.install_event_fired = true ∧
      (r.data.releases = false → r.data.selected_tag = none →
        r.data.default_branch = some db →
        version_to_download r = db ∧ res.repo.data.installed_version = none) := by
  have hcd0 :
      can_download { r with content_local := some p, validate_errors := [] } = true :=
    hcd
  have hv :
      version_to_download { r with content_local := some p, validate_errors := [] } =
        version_to_download r :=
    rfl
  simp only [async_install, async_install_repository, hloc, hcd0, Bool.not_true,
             Bool.false_eq_true, if_false, validateSuccess, List.isEmpty_nil, hv]
  refine ⟨_, rfl, by simp, by simp, by simp, by simp, by simp, by simp, ?_⟩
  intro hrel hsel hdb
  have hvd : version_to_download r = db := by
    simp [version_to_download, hrel, hsel, hdb]
  refine ⟨hvd, ?_⟩
  simp [hvd, hdb]

/-- A fresh plugin repository `acme/widget` with no releases, default
branch "main" and latest commit "abc123". -/
def freshWidgetRepo : HacsRepository :=
  { data := { category := "plugin", full_name := "acme/widget",
              default_branch := some "main", last_commit := some "abc123" },
    content_local := some "/config/www/widget" }

/-- C4 (witness): the theorem applied to a fresh plugin repository with no
releases, whose default branch is "main" and latest commit "abc123". -/
theorem install_success_state_witness :
    ∃ res,
      async_install freshWidgetRepo false [] = .ok res ∧
      res.repo.data.installed = true ∧
      res.repo.data.installed_commit = freshWidgetRepo.data.last_commit ∧
      res.version = version_to_download freshWidgetRepo ∧
      res.repo.data.installed_version =
        (if freshWidgetRepo.data.default_branch =
            some (version_to_download freshWidgetRepo) then none
         else some (version_to_download freshWidgetRepo)) ∧
      res.repo.data.new = false ∧
      res.install_event_fired = true ∧
      (freshWidgetRepo.data.releases = false →
        freshWidgetRepo.data.selected_tag = none →
        freshWidgetRepo.data.default_branch = some "main" →
        version_to_download freshWidgetRepo = "main" ∧
        res.repo.data.installed_version = none) :=
  install_success_state freshWidgetRepo "/config/www/widget" "main" rfl rfl false

/-- C6: refreshing a not-installed repository without force while the
remote's caching token is unchanged returns "unchanged" (false) with the
record untouched, and an identical second call does the same. -/
theorem refresh_not_modified_idempotent (r : HacsRepository)
    (remote : RemoteState) (pm : Option HacsManifestData)
    (hni : r.data.installed = false)
    (hetag : r.data.etag_repository = some remote.etag) :
    common_update r remote false pm = .ok (false, r) ∧
    (∀ s, common_update r remote false pm = .ok (false, s) →
      common_update s remote false pm = .ok (false, s)) := by
  have h1 : common_update r remote false pm = .ok (false, r) := by
    simp [common_update, common_update_data, hni, hetag]
  refine ⟨h1, ?_⟩
  intro s hs
  rw [h1] at hs
  simp only [Except.ok.injEq, Prod.mk.injEq, true_and] at hs
  subst hs
  exact h1

/-- C6 (witness): the theorem applied to a not-installed repository whose
stored caching token matches the remote's. -/
theorem refresh_not_modified_idempotent_witness :
    common_update { data := { etag_repository := some "W/\x22etag1\x22" } }
        { etag := "W/\x22etag1\x22" } false none =
      .ok (false, { data := { etag_repository := some "W/\x22etag1\x22" } }) ∧
    (∀ s,
      common_update { data := { etag_repository := some "W/\x22etag1\x22" } }
          { etag := "W/\x22etag1\x22" } false none = .ok (false, s) →
      common_update s { etag := "W/\x22etag1\x22" } false none = .ok (false, s)) :=
  refresh_not_modified_idempotent _ _ none rfl rfl

/-- C7 (counterexample): a present but malformed hacs.json in interactive
mode: the operation succeeds (no invalid-manifest error is raised) and the
manifest-derived fields stay unchanged, contradicting the claim that a
malformed manifest always fails the operation. -/
theorem manifest_malformed_interactive_counterexample :
    get_repository_manifest_content { tree := ["hacs.json"] } none =
      .ok { ({ tree := ["hacs.json"] } : HacsRepository) with ref := some "" } := by
  rfl

/-- C7 (amended): a missing hacs.json raises exactly in automated mode and
is tolerated otherwise; a present but malformed hacs.json raises the
invalid-manifest error in automated mode, while in interactive mode the
operation succeeds with the record's manifest-derived fields unchanged
(only the resolved ref is stored). -/
theorem manifest_missing_iff_action (r : HacsRepository)
    (parsed : Option HacsManifestData) :
    (r.tree.contains "hacs.json" = false →
      (r.hacs.action = true →
        get_repository_manifest_content r parsed =
          .error "::error:: No hacs.json file in the root of the repository.") ∧
      (r.hacs.action = false →
        get_repository_manifest_content r parsed = .ok r)) ∧
    (r.tree.contains "hacs.json" = true →
      (r.hacs.action = true →
        get_repository_manifest_content r none =
          .error "::error:: hacs.json file is not valid.") ∧
      (r.hacs.action = false →
        get_repository_manifest_content r none =
          .ok { r with ref := some (version_to_download r) })) := by
  constructor
  · intro htree
    constructor <;> intro hact <;>
      · simp only [get_repository_manifest_content]
        rw [htree]
        simp [hact]
  · intro htree
    constructor <;> intro hact <;>
      · simp only [get_repository_manifest_content]
        rw [htree]
        simp [hact]

/-- C7 (witness): the amended theorem applied in automated mode to a
repository without hacs.json, and in interactive mode to one with a
malformed hacs.json. -/
theorem manifest_missing_iff_action_witness :
    get_repository_manifest_content ({ hacs := { action := true } } : HacsRepository) none =
      .error "::error:: No hacs.json file in the root of the repository." ∧
    get_repository_manifest_content ({ tree := ["hacs.json"] } : HacsRepository) none =
      .ok { ({ tree := ["hacs.json"] } : HacsRepository) with
            ref := some (version_to_download ({ tree := ["hacs.json"] } : HacsRepository)) } :=
  ⟨((manifest_missing_iff_action { hacs := { action := true } } none).1 (by decide)).1 rfl,
   ((manifest_missing_iff_action { tree := ["hacs.json"] } none).2 (by decide)).2 rfl⟩

/-- C10 (witness): the theorem applied to a fresh default repository. -/
theorem not_installed_never_pending_upgrade_witness :
    pending_update ({} : HacsRepository) = false ∧
    display_status ({} : HacsRepository) ≠ "pending-upgrade" :=
  not_installed_never_pending_upgrade {} rfl

end Hacs
